import Mathlib

/-!
Verification of the marker drawing tool of the rnote engine: the stroke
geometry model (`MarkerStroke`), the marker tool state machine
(`Marker.handle_event`) and the marker configuration (`MarkerConfig`).

Coordinates, colors and widths are embedded as exact rationals.  Operations of
collaborating components that are consumed but not defined in the sources at
hand (the stroke store, the path builder, the rasterizer and the small geometry
helpers of rnote-compose / p2d) are modelled from the spec, each marked by a
doc comment starting with `Modelled from the spec:`.
-/

namespace Rnote

/-- A 2D vector with exact rational coordinates (embedding of `na::Vector2<f64>`). -/
structure Vec2 where
  x : ℚ
  y : ℚ
deriving DecidableEq, Repr

/-- An axis-aligned bounding box (`p2d::bounding_volume::Aabb`). -/
structure Aabb where
  mins : Vec2
  maxs : Vec2
deriving DecidableEq, Repr

namespace Aabb

/-- `Aabb::loosened(amount)`: grow the box by `amount` on every side. -/
def loosened (b : Aabb) (amount : ℚ) : Aabb :=
  ⟨⟨b.mins.x - amount, b.mins.y - amount⟩, ⟨b.maxs.x + amount, b.maxs.y + amount⟩⟩

/-- parry2d `Aabb::contains_local_point`: the point lies inside the box. -/
def containsPoint (b : Aabb) (p : Vec2) : Bool :=
  decide (b.mins.x ≤ p.x ∧ p.x ≤ b.maxs.x ∧ b.mins.y ≤ p.y ∧ p.y ≤ b.maxs.y)

/-- parry2d `BoundingVolume::contains`: `b` contains the whole box `other`. -/
def contains (b other : Aabb) : Bool :=
  decide (b.mins.x ≤ other.mins.x ∧ b.mins.y ≤ other.mins.y ∧
    other.maxs.x ≤ b.maxs.x ∧ other.maxs.y ≤ b.maxs.y)

/-- parry2d `Aabb::intersection`: componentwise sup of mins and inf of maxs,
`none` when the resulting box is empty in some axis. -/
def intersection (b other : Aabb) : Option Aabb :=
  let mins : Vec2 := ⟨max b.mins.x other.mins.x, max b.mins.y other.mins.y⟩
  let maxs : Vec2 := ⟨min b.maxs.x other.maxs.x, min b.maxs.y other.maxs.y⟩
  if mins.x ≤ maxs.x ∧ mins.y ≤ maxs.y then some ⟨mins, maxs⟩ else none

/-- The degenerate box containing exactly one point. -/
def ofPoint (p : Vec2) : Aabb := ⟨p, p⟩

/-- Smallest box containing `b` and the point `p`. -/
def mergePoint (b : Aabb) (p : Vec2) : Aabb :=
  ⟨⟨min b.mins.x p.x, min b.mins.y p.y⟩, ⟨max b.maxs.x p.x, max b.maxs.y p.y⟩⟩

end Aabb

/-- `rnote_compose::penpath::Element`: one input sample, position plus pressure
(pressure is accepted by the event type but unused by the marker tool). -/
structure Element where
  pos : Vec2
  pressure : ℚ
deriving DecidableEq, Repr

/-- Modelled from the spec: `Element::filter_by_bounds` of rnote-compose (not under
src/) returns `true` when the element is to be filtered out, i.e. its position does
not lie within the given bounds. -/
def Element.filter_by_bounds (e : Element) (filterBounds : Aabb) : Bool :=
  !(filterBounds.containsPoint e.pos)

/-- Modelled from the spec: a path segment of rnote-compose (not under src/).  A
segment is a geometric primitive between two path points; the marker tool's
`PenPathSimpleBuilder` emits line segments, each storing its end element, the start
being the end of the preceding segment (or the path's start element). -/
inductive Segment where
  | lineTo (endElement : Element)
deriving DecidableEq, Repr

/-- `Segment::end()`: the end element of the segment. -/
def Segment.endEl : Segment → Element
  | .lineTo e => e

/-- `rnote_compose::PenPath`: a start element followed by segments, in drawing order. -/
structure PenPath where
  start : Element
  segments : List Segment
deriving DecidableEq, Repr

namespace PenPath

/-- `PenPath::new(start)`: path with no segments yet. -/
def new (start : Element) : PenPath := ⟨start, []⟩

/-- `PenPath::new_w_segments(start, segments)`. -/
def new_w_segments (start : Element) (segs : List Segment) : PenPath := ⟨start, segs⟩

/-- `PenPath::extend(segments)`: append-only extension of the path. -/
def extend (p : PenPath) (segs : List Segment) : PenPath := ⟨p.start, p.segments ++ segs⟩

/-- Modelled from the spec: `PenPath::bounds` of rnote-compose (not under src/) — the
axis-aligned box of all path points. -/
def bounds (p : PenPath) : Aabb :=
  p.segments.foldl (fun b s => b.mergePoint s.endEl.pos) (Aabb.ofPoint p.start.pos)

/-- One box per segment, spanning the segment's start and end points. -/
def segHitboxes (prev : Element) : List Segment → List Aabb
  | [] => []
  | s :: rest => (Aabb.ofPoint prev.pos).mergePoint s.endEl.pos :: segHitboxes s.endEl rest

/-- Modelled from the spec: `PenPath::hitboxes` of rnote-compose (not under src/) —
one box per segment, each the segment's own box. -/
def hitboxes (p : PenPath) : List Aabb := segHitboxes p.start p.segments

/-- Modelled from the spec: `Transformable::scale` acting on a path multiplies the
path coordinates per-axis. -/
def scale (p : PenPath) (sv : Vec2) : PenPath :=
  ⟨⟨⟨sv.x * p.start.pos.x, sv.y * p.start.pos.y⟩, p.start.pressure⟩,
    p.segments.map fun s =>
      .lineTo ⟨⟨sv.x * s.endEl.pos.x, sv.y * s.endEl.pos.y⟩, s.endEl.pressure⟩⟩

end PenPath

/-- `rnote_compose::Color`: RGBA with rational components. -/
structure Color where
  r : ℚ
  g : ℚ
  b : ℚ
  a : ℚ
deriving DecidableEq, Repr

/-- `MarkerShape` (markerconfig.rs): cap/join style of the marker. -/
inductive MarkerShape where
  | circular
  | rectangular
deriving DecidableEq, Repr

/-- `StrokeLayer` of the store's chrono component (not under src/); the marker
config maps to the highlighter layer. -/
inductive StrokeLayer where
  | userLayer (n : ℕ)
  | highlighter
  | image
  | document
deriving DecidableEq, Repr

/-- `MarkerConfig` (markerconfig.rs). -/
structure MarkerConfig where
  strength : ℚ
  width : ℚ
  shape : MarkerShape
  color : Color
deriving DecidableEq, Repr

namespace MarkerConfig

/-- `MarkerConfig::default()`. -/
def default : MarkerConfig :=
  { strength := 1/2
    width := 15
    shape := .circular
    color := { r := 1, g := 9/10, b := 0, a := 1 } }

def STRENGTH_MIN : ℚ := 0
def STRENGTH_MAX : ℚ := 1
def WIDTH_MIN : ℚ := 1
def WIDTH_MAX : ℚ := 500

/-- `MarkerConfig::layer()`. -/
def layer (_ : MarkerConfig) : StrokeLayer := .highlighter

/-- `MarkerConfig::effective_color()`: the base color with strength applied to alpha. -/
def effective_color (c : MarkerConfig) : Color :=
  { c.color with a := c.color.a * c.strength }

end MarkerConfig

/-- Line join style of the piet stroke style. -/
inductive LineJoin where
  | round
  | bevel
deriving DecidableEq, Repr

/-- Line cap style of the piet stroke style. -/
inductive LineCap where
  | round
  | butt
deriving DecidableEq, Repr

/-- `piet::StrokeStyle`, restricted to the fields the marker sets. -/
structure StrokeStyle where
  join : LineJoin
  cap : LineCap
deriving DecidableEq, Repr

/-- The stroke style chosen in `draw_marker_path` / `gen_image_for_last_segments`:
`Circular` maps to round joins and caps, `Rectangular` to bevel joins and butt caps. -/
def markerStrokeStyle : MarkerShape → StrokeStyle
  | .circular => ⟨.round, .round⟩
  | .rectangular => ⟨.bevel, .butt⟩

/-- Modelled from the spec: `render::Image::gen_with_piet` (not under src/) rasterizes
drawn content over the given bounds at the given scale.  We record symbolically what
is drawn: the path, its color, width and stroke style, the rasterized bounds and the
image scale. -/
structure Image where
  path : PenPath
  color : Color
  width : ℚ
  style : StrokeStyle
  bounds : Aabb
  scale : ℚ
deriving DecidableEq, Repr

/-- `GeneratedContentImages` of the content module: a full rendering, or a rendering
clipped to the viewport with the viewport retained. -/
inductive GeneratedContentImages where
  | full (images : List Image)
  | partialImages (images : List Image) (viewport : Aabb)
deriving DecidableEq, Repr

/-- `MarkerStroke` (markerstroke.rs): the persisted path plus fixed style attributes,
with the serde-skipped cached hitboxes field. -/
structure MarkerStroke where
  path : PenPath
  width : ℚ
  shape : MarkerShape
  color : Color
  hitboxes : List Aabb
deriving DecidableEq, Repr

namespace MarkerStroke

/-- `MarkerStroke::gen_hitboxes_int`: the path's per-segment hitboxes, each loosened
by half the width. -/
def gen_hitboxes_int (s : MarkerStroke) : List Aabb :=
  s.path.hitboxes.map (fun hb => hb.loosened (s.width * (1/2)))

/-- `Content::update_geometry`: recompute the cached hitboxes from the current path. -/
def update_geometry (s : MarkerStroke) : MarkerStroke :=
  { s with hitboxes := s.gen_hitboxes_int }

/-- `MarkerStroke::from_penpath`: build the stroke and regenerate its geometry. -/
def from_penpath (path : PenPath) (width : ℚ) (shape : MarkerShape) (color : Color) :
    MarkerStroke :=
  (MarkerStroke.mk path width shape color []).update_geometry

/-- `MarkerStroke::new(start, width, shape, color)`. -/
def new (start : Element) (width : ℚ) (shape : MarkerShape) (color : Color) : MarkerStroke :=
  from_penpath (PenPath.new start) width shape color

/-- `Shapeable::bounds`: the path bounds loosened by half the width. -/
def bounds (s : MarkerStroke) : Aabb :=
  s.path.bounds.loosened (s.width * (1/2))

/-- `MarkerStroke::extend_w_segments`: append segments to the path (and nothing else). -/
def extend_w_segments (s : MarkerStroke) (segs : List Segment) : MarkerStroke :=
  { s with path := s.path.extend segs }

/-- `MarkerStroke::replace_path`: replace the path and regenerate the geometry. -/
def replace_path (s : MarkerStroke) (path : PenPath) : MarkerStroke :=
  ({ s with path := path }).update_geometry

/-- `Content::gen_images(viewport, image_scale)`.  The rasterizer may fail; failure is
modelled by the `renderOk` oracle and degrades to an empty image list (the source
logs the error). -/
def gen_images (s : MarkerStroke) (viewport : Aabb) (imageScale : ℚ) (renderOk : Bool) :
    Except String GeneratedContentImages :=
  match viewport.intersection s.bounds with
  | none => .ok (.partialImages [] viewport)
  | some clipped =>
    let images :=
      if renderOk then
        [Image.mk s.path s.color s.width (markerStrokeStyle s.shape) clipped imageScale]
      else []
    if !(viewport.contains s.bounds) then .ok (.partialImages images viewport)
    else .ok (.full images)

/-- The start element of the trailing sub-path in `gen_image_for_last_segments`:
`segments.get(path_len.saturating_sub(n).saturating_sub(1)).map(end).unwrap_or(path.start)`. -/
def lastSegmentsStartEl (s : MarkerStroke) (nLastSegments : ℕ) : Element :=
  match s.path.segments.get? (s.path.segments.length - nLastSegments - 1) with
  | some seg => seg.endEl
  | none => s.path.start

/-- The trailing sub-path reconstructed by `gen_image_for_last_segments`. -/
def lastSegmentsRangePath (s : MarkerStroke) (nLastSegments : ℕ) : PenPath :=
  PenPath.new_w_segments (s.lastSegmentsStartEl nLastSegments)
    (s.path.segments.drop (s.path.segments.length - nLastSegments))

/-- `MarkerStroke::gen_image_for_last_segments(n_last_segments, image_scale)`:
reconstruct the trailing sub-path and rasterize it over its own bounds loosened by
half the width.  Rasterizer failure is modelled by the `renderOk` oracle and is
propagated (the source uses `?`). -/
def gen_image_for_last_segments (s : MarkerStroke) (nLastSegments : ℕ) (imageScale : ℚ)
    (renderOk : Bool) : Except String (Option Image) :=
  let rangePath := s.lastSegmentsRangePath nLastSegments
  let bounds := rangePath.bounds.loosened (s.width * (1/2))
  if renderOk then
    .ok (some (Image.mk rangePath s.color s.width (markerStrokeStyle s.shape) bounds imageScale))
  else .error "gen_with_piet failed"

end MarkerStroke

/-- The result of a non-uniform scale of a `MarkerStroke`: the path is scaled
per-axis and stays rational, the width is multiplied by the geometric mean of the
two axis scale factors, which is a real number in general. -/
structure MarkerStrokeScaled where
  path : PenPath
  width : ℝ
  shape : MarkerShape
  color : Color

/-- `Transformable::scale` for `MarkerStroke`: scale the path per-axis, then multiply
the width by the geometric mean `sqrt(scale.x * scale.y)` of the axis factors. -/
noncomputable def MarkerStroke.scale (s : MarkerStroke) (sv : Vec2) : MarkerStrokeScaled :=
  { path := s.path.scale sv
    width := (s.width : ℝ) * Real.sqrt ((sv.x : ℝ) * (sv.y : ℝ))
    shape := s.shape
    color := s.color }

/-- Modelled from the spec: the pointer event stream (`rnote_compose::penevent::PenEvent`
is not under src/): `Down`, `Move`, `Up` carry a 2D position (an element), `Cancel`
carries none. -/
inductive PenEvent where
  | down (element : Element)
  | move (element : Element)
  | up (element : Element)
  | cancel
deriving DecidableEq, Repr

/-- `rnote_compose::eventresult::EventPropagation`. -/
inductive EventPropagation where
  | proceed
  | stop
deriving DecidableEq, Repr

/-- `rnote_compose::eventresult::EventResult`. -/
structure EventResult (P : Type) where
  handled : Bool
  propagate : EventPropagation
  progress : P
deriving DecidableEq, Repr

/-- `rnote_compose::penevent::PenProgress`. -/
inductive PenProgress where
  | idle
  | inProgress
  | finished
deriving DecidableEq, Repr

/-- `rnote_compose::builders::buildable::BuilderProgress` with `Emit = Segment`. -/
inductive BuilderProgress where
  | inProgress
  | emitContinue (segments : List Segment)
  | finished (segments : List Segment)
deriving DecidableEq, Repr

/-- `MarkerState` (marker.rs): the tool session state.  The boxed `path_builder` of the
`Drawing` variant is dynamically dispatched and defined outside src/; its behaviour is
modelled by the builder-result oracle passed to `Marker.handle_event`, so the state
keeps only the stroke key. -/
inductive MarkerState where
  | idle
  | drawing (currentStrokeKey : ℕ)
deriving DecidableEq, Repr

/-- Modelled from the spec: the shared stroke store (rnote-engine's store is not under
src/).  Strokes are kept in insertion order; a `StrokeKey` is the insertion index.
The marker tool only ever inserts marker strokes, so the store is modelled as holding
marker strokes. -/
structure StrokeStore where
  strokes : List MarkerStroke
deriving DecidableEq, Repr

namespace StrokeStore

/-- Modelled from the spec: `insert_stroke` returns the new stroke's key. -/
def insert_stroke (st : StrokeStore) (s : MarkerStroke) : StrokeStore × ℕ :=
  (⟨st.strokes ++ [s]⟩, st.strokes.length)

/-- Modelled from the spec: `get_stroke` by key. -/
def get_stroke (st : StrokeStore) (key : ℕ) : Option MarkerStroke :=
  st.strokes.get? key

/-- Modelled from the spec: mutate the stroke at `key` in place (`get_stroke_mut`
followed by a mutation); a missing key mutates nothing. -/
def modify_stroke (st : StrokeStore) (key : ℕ) (f : MarkerStroke → MarkerStroke) :
    StrokeStore :=
  match st.strokes.get? key with
  | some s => ⟨st.strokes.set key (f s)⟩
  | none => st

/-- Modelled from the spec: `update_geometry_for_stroke` recomputes the stroke's
bounds/hitboxes via `Content::update_geometry`. -/
def update_geometry_for_stroke (st : StrokeStore) (key : ℕ) : StrokeStore :=
  st.modify_stroke key MarkerStroke.update_geometry

end StrokeStore

/-- How a render request is dispatched: synchronously in-line on the calling thread,
or to the background task queue through the `tasks_tx` task-submission handle. -/
inductive RenderDispatch where
  | inline
  | threaded
deriving DecidableEq, Repr

/-- Modelled from the spec: the observable side effects `handle_event` issues against
the store / document / history collaborators (all outside src/), in issue order. -/
inductive StoreEffect where
  | regenerateRendering (dispatch : RenderDispatch) (key : ℕ) (viewport : Aabb)
      (imageScale : ℚ)
  | appendRenderingLastSegments (dispatch : RenderDispatch) (key : ℕ) (nSegments : ℕ)
      (viewport : Aabb) (imageScale : ℚ)
  | resizeAutoexpand
  | recordHistory
deriving DecidableEq, Repr

/-- `WidgetFlags`, restricted to the flag the marker tool sets itself. -/
structure WidgetFlags where
  store_modified : Bool := false
deriving DecidableEq, Repr

/-- The parts of `EngineViewMut` the marker tool reads: the store, the document
bounds, the camera's viewport and image scale, and the marker config. -/
structure EngineViewMut where
  store : StrokeStore
  documentBounds : Aabb
  viewport : Aabb
  imageScale : ℚ
  marker_config : MarkerConfig
deriving DecidableEq, Repr

/-- The outcome of one `Marker::handle_event` call: the event result and widget
flags it returns, the successor tool state, the store contents after the call and
the trace of issued side effects. -/
structure HandleOut where
  eventResult : EventResult PenProgress
  widgetFlags : WidgetFlags
  state : MarkerState
  store : StrokeStore
  effects : List StoreEffect
deriving DecidableEq, Repr

/-- `Marker::INPUT_OVERSHOOT`. -/
def Marker.INPUT_OVERSHOOT : ℚ := 30

/-- `Marker::handle_event` (marker.rs).  The active path builder's reaction to the
forwarded event is an input (`builderResult`), since the concrete builder is
dynamically dispatched and defined outside src/. -/
def Marker.handle_event (state : MarkerState) (event : PenEvent)
    (builderResult : EventResult BuilderProgress) (view : EngineViewMut) : HandleOut :=
  match state, event with
  | .idle, .down element =>
    if !(element.filter_by_bounds (view.documentBounds.loosened Marker.INPUT_OVERSHOOT)) then
      let markerConfig := view.marker_config
      let markerstroke := MarkerStroke.new element markerConfig.width markerConfig.shape
        markerConfig.effective_color
      let inserted := view.store.insert_stroke markerstroke
      { eventResult := ⟨true, .stop, .inProgress⟩
        widgetFlags := {}
        state := .drawing inserted.2
        store := inserted.1
        effects := [.regenerateRendering .inline inserted.2 view.viewport view.imageScale] }
    else
      { eventResult := ⟨false, .proceed, .idle⟩
        widgetFlags := {}
        state := .idle
        store := view.store
        effects := [] }
  | .idle, _ =>
      { eventResult := ⟨false, .proceed, .idle⟩
        widgetFlags := {}
        state := .idle
        store := view.store
        effects := [] }
  | .drawing currentStrokeKey, .cancel =>
      { eventResult := ⟨true, .stop, .finished⟩
        widgetFlags := { store_modified := true }
        state := .idle
        store := view.store.update_geometry_for_stroke currentStrokeKey
        effects :=
          [.regenerateRendering .threaded currentStrokeKey view.viewport view.imageScale,
           .resizeAutoexpand, .recordHistory] }
  | .drawing currentStrokeKey, _ =>
      match builderResult.progress with
      | .inProgress =>
          { eventResult := ⟨builderResult.handled, builderResult.propagate, .inProgress⟩
            widgetFlags := {}
            state := .drawing currentStrokeKey
            store := view.store
            effects := [] }
      | .emitContinue segments =>
          if segments.length ≠ 0 then
            { eventResult := ⟨builderResult.handled, builderResult.propagate, .inProgress⟩
              widgetFlags :=
                { store_modified := (view.store.get_stroke currentStrokeKey).isSome }
              state := .drawing currentStrokeKey
              store := view.store.modify_stroke currentStrokeKey
                (fun s => s.extend_w_segments segments)
              effects := [.appendRenderingLastSegments .threaded currentStrokeKey
                segments.length view.viewport view.imageScale] }
          else
            { eventResult := ⟨builderResult.handled, builderResult.propagate, .inProgress⟩
              widgetFlags := {}
              state := .drawing currentStrokeKey
              store := view.store
              effects := [] }
      | .finished segments =>
          let afterAppend : StrokeStore × List StoreEffect :=
            if segments.length ≠ 0 then
              (view.store.modify_stroke currentStrokeKey
                 (fun s => s.extend_w_segments segments),
               [.appendRenderingLastSegments .threaded currentStrokeKey
                 segments.length view.viewport view.imageScale])
            else (view.store, [])
          { eventResult := ⟨builderResult.handled, builderResult.propagate, .finished⟩
            widgetFlags := { store_modified := true }
            state := .idle
            store := afterAppend.1.update_geometry_for_stroke currentStrokeKey
            effects := afterAppend.2 ++
              [.regenerateRendering .threaded currentStrokeKey view.viewport view.imageScale,
               .resizeAutoexpand, .recordHistory] }

/-- One input to the tool: the pointer event together with the active builder's
reaction were the event forwarded to it. -/
structure ToolInput where
  event : PenEvent
  builderResult : EventResult BuilderProgress
deriving DecidableEq, Repr

/-- Fold `Marker.handle_event` over an input sequence, threading tool state and store. -/
def Marker.run_events : MarkerState → EngineViewMut → List ToolInput →
    MarkerState × EngineViewMut
  | st, view, [] => (st, view)
  | st, view, i :: rest =>
      let out := Marker.handle_event st i.event i.builderResult view
      Marker.run_events out.state { view with store := out.store } rest

/-! Concrete fixtures for the concrete evaluations. -/

/-- Concrete element constructor used in concrete scenarios. -/
def el (x y : ℚ) : Element := ⟨⟨x, y⟩, 0⟩

/-- Concrete engine view: empty store, document and viewport (0,0)–(500,500),
image scale 1, default marker config. -/
def view0 : EngineViewMut :=
  { store := ⟨[]⟩
    documentBounds := ⟨⟨0, 0⟩, ⟨500, 500⟩⟩
    viewport := ⟨⟨0, 0⟩, ⟨500, 500⟩⟩
    imageScale := 1
    marker_config := MarkerConfig.default }

/-- Concrete engine view whose store holds one marker stroke at key 0. -/
def view1 : EngineViewMut :=
  { view0 with store := ⟨[MarkerStroke.new (el 10 10) 10 .circular ⟨0, 0, 0, 1⟩]⟩ }

/-- A builder result whose progress is in-progress. -/
def brInProgress : EventResult BuilderProgress := ⟨true, .stop, .inProgress⟩

/-! Helper lemmas. -/

/-- A box is valid when its mins do not exceed its maxs. -/
def Aabb.valid (b : Aabb) : Prop := b.mins.x ≤ b.maxs.x ∧ b.mins.y ≤ b.maxs.y

theorem Aabb.valid_mergePoint (b : Aabb) (p : Vec2) (hb : b.valid) :
    (b.mergePoint p).valid := by
  constructor
  · exact le_trans (min_le_left _ _) (le_trans hb.1 (le_max_left _ _))
  · exact le_trans (min_le_left _ _) (le_trans hb.2 (le_max_left _ _))

theorem foldl_mergePoint_valid (l : List Segment) (b : Aabb) (hb : b.valid) :
    (l.foldl (fun acc s => acc.mergePoint s.endEl.pos) b).valid := by
  induction l generalizing b with
  | nil => exact hb
  | cons s rest ih => exact ih _ (Aabb.valid_mergePoint b s.endEl.pos hb)

theorem PenPath.bounds_valid (p : PenPath) : p.bounds.valid :=
  foldl_mergePoint_valid p.segments (Aabb.ofPoint p.start.pos) ⟨le_refl _, le_refl _⟩

theorem Aabb.valid_loosened (b : Aabb) (amount : ℚ) (hb : b.valid) (ha : 0 ≤ amount) :
    (b.loosened amount).valid := by
  refine ⟨?_, ?_⟩ <;> simp only [Aabb.loosened] <;> linarith [hb.1, hb.2]

theorem Aabb.intersection_of_contains (v b : Aabb) (hv : v.contains b = true)
    (hb : b.valid) : v.intersection b = some b := by
  simp only [Aabb.contains, decide_eq_true_eq] at hv
  obtain ⟨h1, h2, h3, h4⟩ := hv
  simp only [Aabb.intersection, max_eq_right h1, max_eq_right h2, min_eq_right h3,
    min_eq_right h4]
  simp [hb.1, hb.2]

theorem StrokeStore.get_modify (st : StrokeStore) (key : ℕ)
    (f : MarkerStroke → MarkerStroke) :
    (st.modify_stroke key f).get_stroke key = (st.get_stroke key).map f := by
  simp only [StrokeStore.modify_stroke, StrokeStore.get_stroke]
  cases h : st.strokes.get? key with
  | none => simp [h, List.get?_eq_none.mp h]
  | some s =>
    have hlt : key < st.strokes.length := by
      cases List.get?_eq_some.mp h with
      | intro hl _ => exact hl
    simp [h, List.get?_set, hlt]

/-! Claim theorems. -/

/-- C5 counterexample: for the Scenario A configuration (base color (1, 0.9, 0, 1),
strength 0.5) the effective alpha is 0.5, not 0.45 as the claim states — the base
alpha is 1, so alpha times strength is 0.5 (0.45 would be the green channel times
strength). -/
theorem C5_counterexample :
    (MarkerConfig.mk (1/2) 15 .circular ⟨1, 9/10, 0, 1⟩).effective_color.a = 1/2 ∧
    ¬ (MarkerConfig.mk (1/2) 15 .circular ⟨1, 9/10, 0, 1⟩).effective_color.a = 9/20 := by
  constructor <;> norm_num [MarkerConfig.effective_color]

/-- C5 (amended): `effective_color` returns the base color with its alpha multiplied
by strength and the other channels unchanged; for the Scenario A configuration
(base color (1, 0.9, 0, 1), strength 0.5) the effective alpha is 0.5. -/
theorem C5_effective_color (cfg : MarkerConfig) :
    cfg.effective_color.a = cfg.color.a * cfg.strength ∧
    cfg.effective_color.r = cfg.color.r ∧
    cfg.effective_color.g = cfg.color.g ∧
    cfg.effective_color.b = cfg.color.b ∧
    (MarkerConfig.mk (1/2) 15 .circular ⟨1, 9/10, 0, 1⟩).effective_color.a = 1/2 := by
  refine ⟨rfl, rfl, rfl, rfl, ?_⟩
  norm_num [MarkerConfig.effective_color]

/-- C9: `scale` multiplies the path coordinates per-axis and the width by the
geometric mean of the two axis factors; scaling a width-10 stroke by (2, 0.5)
leaves the width at 10 since sqrt(2 × 0.5) = 1. -/
theorem C9_scale_geometric_mean (s : MarkerStroke) (sv : Vec2) :
    (s.scale sv).width = (s.width : ℝ) * Real.sqrt ((sv.x : ℝ) * (sv.y : ℝ)) ∧
    (s.scale sv).path.start.pos = ⟨sv.x * s.path.start.pos.x, sv.y * s.path.start.pos.y⟩ ∧
    (s.scale sv).path.segments = s.path.segments.map (fun sg =>
      .lineTo ⟨⟨sv.x * sg.endEl.pos.x, sv.y * sg.endEl.pos.y⟩, sg.endEl.pressure⟩) ∧
    ((MarkerStroke.new (el 0 0) 10 .circular ⟨0, 0, 0, 1⟩).scale ⟨2, 1/2⟩).width = 10 := by
  refine ⟨rfl, rfl, rfl, ?_⟩
  show ((10 : ℚ) : ℝ) * Real.sqrt (((2 : ℚ) : ℝ) * (((1 : ℚ)/2 : ℚ) : ℝ)) = 10
  have h2 : (((2 : ℚ) : ℝ) * (((1 : ℚ)/2 : ℚ) : ℝ)) = 1 := by push_cast; norm_num
  rw [h2, Real.sqrt_one]
  norm_num

/-- C10: `extend_w_segments` appends to the path but leaves the cached hitboxes
unchanged (so they are stale until `update_geometry` recomputes them), whereas
`bounds` is recomputed from the current path on every call; on a concrete stroke
the cached hitboxes after an extension really differ from the up-to-date ones. -/
theorem C10_extend_stale_hitboxes (s : MarkerStroke) (segs : List Segment) :
    (s.extend_w_segments segs).hitboxes = s.hitboxes ∧
    (s.extend_w_segments segs).path = s.path.extend segs ∧
    (s.extend_w_segments segs).bounds =
      (s.path.extend segs).bounds.loosened (s.width * (1/2)) ∧
    ((s.extend_w_segments segs).update_geometry).hitboxes =
      (s.extend_w_segments segs).gen_hitboxes_int ∧
    ((MarkerStroke.new (el 0 0) 10 .circular ⟨0, 0, 0, 1⟩).extend_w_segments
        [.lineTo (el 5 0)]).hitboxes ≠
      ((MarkerStroke.new (el 0 0) 10 .circular ⟨0, 0, 0, 1⟩).extend_w_segments
        [.lineTo (el 5 0)]).gen_hitboxes_int := by
  refine ⟨rfl, rfl, rfl, rfl, ?_⟩
  decide

/-- C6: a marker stroke's bounds are the path's bounds loosened by exactly half the
width on all sides — `bounds` recomputes this from the current path on every query,
so it also holds of every stroke in the store after any event sequence has been run
through the tool. -/
theorem C6_bounds_half_width (s : MarkerStroke) (st : MarkerState) (view : EngineViewMut)
    (inputs : List ToolInput) (s' : MarkerStroke)
    (_hmem : s' ∈ (Marker.run_events st view inputs).2.store.strokes) :
    s.bounds = s.path.bounds.loosened (s.width * (1/2)) ∧
    s'.bounds = s'.path.bounds.loosened (s'.width * (1/2)) := by
  exact ⟨rfl, rfl⟩

/-- The single-stroke store contents after a Down at (10, 10) on `view0`. -/
theorem run_down_view0_strokes :
    (Marker.run_events .idle view0 [⟨.down (el 10 10), brInProgress⟩]).2.store.strokes =
      [MarkerStroke.mk (PenPath.new (el 10 10)) 15 .circular ⟨1, 9/10, 0, 1/2⟩ []] := by
  have hc : (el 10 10).filter_by_bounds
      ((⟨⟨0, 0⟩, ⟨500, 500⟩⟩ : Aabb).loosened Marker.INPUT_OVERSHOOT) = false := by
    norm_num [Element.filter_by_bounds, Aabb.containsPoint, Aabb.loosened,
      Marker.INPUT_OVERSHOOT, el]
  norm_num [Marker.run_events, Marker.handle_event, hc, view0, StrokeStore.insert_stroke,
    MarkerStroke.new, MarkerStroke.from_penpath, MarkerStroke.update_geometry,
    MarkerStroke.gen_hitboxes_int, PenPath.hitboxes, PenPath.new, PenPath.segHitboxes,
    MarkerConfig.default, MarkerConfig.effective_color]

/-- C6 witness: the stroke created by a concrete in-bounds Down is in the store after
the run, and its bounds are its path bounds loosened by half its width. -/
theorem C6_bounds_half_width_witness :
    MarkerStroke.mk (PenPath.new (el 10 10)) 15 .circular ⟨1, 9/10, 0, 1/2⟩ [] ∈
      (Marker.run_events .idle view0 [⟨.down (el 10 10), brInProgress⟩]).2.store.strokes ∧
    (MarkerStroke.mk (PenPath.new (el 10 10)) 15 .circular ⟨1, 9/10, 0, 1/2⟩ []).bounds =
      (PenPath.new (el 10 10)).bounds.loosened ((15 : ℚ) * (1/2)) :=
  ⟨run_down_view0_strokes ▸ List.mem_singleton.mpr rfl,
    (C6_bounds_half_width (MarkerStroke.mk (PenPath.new (el 10 10)) 15 .circular
      ⟨1, 9/10, 0, 1/2⟩ []) .idle view0 [⟨.down (el 10 10), brInProgress⟩]
      (MarkerStroke.mk (PenPath.new (el 10 10)) 15 .circular ⟨1, 9/10, 0, 1/2⟩ [])
      (run_down_view0_strokes ▸ List.mem_singleton.mpr rfl)).2⟩

/-- The Down position (10, 10) lies within `view0`'s document bounds loosened by the
overshoot margin. -/
theorem containsPoint_down_in_view0 :
    (view0.documentBounds.loosened Marker.INPUT_OVERSHOOT).containsPoint (el 10 10).pos =
      true := by
  norm_num [Aabb.containsPoint, Aabb.loosened, view0, Marker.INPUT_OVERSHOOT, el]

/-- The Down position (1000, 1000) lies outside `view0`'s document bounds loosened by
the overshoot margin. -/
theorem containsPoint_down_out_view0 :
    (view0.documentBounds.loosened Marker.INPUT_OVERSHOOT).containsPoint (el 1000 1000).pos =
      false := by
  norm_num [Aabb.containsPoint, Aabb.loosened, view0, Marker.INPUT_OVERSHOOT, el]

/-- C1: in Idle, a Down whose position lies within the document bounds loosened by
the 30-unit overshoot margin creates a marker stroke from the config snapshot
(width, shape, effective color), inserts it into the store, requests one inline
non-incremental render for it, moves to Drawing and reports handled, propagation
stopped, in-progress; a Down outside that margin is unhandled with propagation
proceeding, the session stays Idle and the store is untouched. -/
theorem C1_idle_down (element : Element) (br : EventResult BuilderProgress)
    (view : EngineViewMut) :
    ((view.documentBounds.loosened Marker.INPUT_OVERSHOOT).containsPoint element.pos = true →
      Marker.handle_event .idle (.down element) br view =
        { eventResult := ⟨true, .stop, .inProgress⟩
          widgetFlags := {}
          state := .drawing view.store.strokes.length
          store := ⟨view.store.strokes ++
            [MarkerStroke.new element view.marker_config.width view.marker_config.shape
              view.marker_config.effective_color]⟩
          effects := [.regenerateRendering .inline view.store.strokes.length view.viewport
            view.imageScale] }) ∧
    ((view.documentBounds.loosened Marker.INPUT_OVERSHOOT).containsPoint element.pos = false →
      Marker.handle_event .idle (.down element) br view =
        { eventResult := ⟨false, .proceed, .idle⟩
          widgetFlags := {}
          state := .idle
          store := view.store
          effects := [] }) := by
  constructor <;> intro h <;>
    simp [Marker.handle_event, Element.filter_by_bounds, h, StrokeStore.insert_stroke]

/-- C1 witness: the concrete Down at (10, 10) on `view0` creates and renders the
stroke, the concrete Down at (1000, 1000) is passed through untouched. -/
theorem C1_idle_down_witness :
    (view0.documentBounds.loosened Marker.INPUT_OVERSHOOT).containsPoint (el 10 10).pos =
      true ∧
    (view0.documentBounds.loosened Marker.INPUT_OVERSHOOT).containsPoint
      (el 1000 1000).pos = false ∧
    Marker.handle_event .idle (.down (el 10 10)) brInProgress view0 =
      { eventResult := ⟨true, .stop, .inProgress⟩
        widgetFlags := {}
        state := .drawing view0.store.strokes.length
        store := ⟨view0.store.strokes ++
          [MarkerStroke.new (el 10 10) view0.marker_config.width view0.marker_config.shape
            view0.marker_config.effective_color]⟩
        effects := [.regenerateRendering .inline view0.store.strokes.length view0.viewport
          view0.imageScale] } ∧
    Marker.handle_event .idle (.down (el 1000 1000)) brInProgress view0 =
      { eventResult := ⟨false, .proceed, .idle⟩
        widgetFlags := {}
        state := .idle
        store := view0.store
        effects := [] } :=
  ⟨containsPoint_down_in_view0, containsPoint_down_out_view0,
    (C1_idle_down (el 10 10) brInProgress view0).1 containsPoint_down_in_view0,
    (C1_idle_down (el 1000 1000) brInProgress view0).2 containsPoint_down_out_view0⟩

/-- C3: Cancel while Drawing is total and safe in every reachable state, including
right after Down with an empty path: it recomputes the cancelled stroke's geometry,
issues exactly one history checkpoint, requests document auto-expand, returns to
Idle and reports handled, propagation stopped, finished. -/
theorem C3_cancel_safe (key : ℕ) (br : EventResult BuilderProgress)
    (view : EngineViewMut) :
    (Marker.handle_event (.drawing key) .cancel br view).store =
      view.store.update_geometry_for_stroke key ∧
    (Marker.handle_event (.drawing key) .cancel br view).store.get_stroke key =
      (view.store.get_stroke key).map MarkerStroke.update_geometry ∧
    (Marker.handle_event (.drawing key) .cancel br view).effects =
      [.regenerateRendering .threaded key view.viewport view.imageScale,
       .resizeAutoexpand, .recordHistory] ∧
    (Marker.handle_event (.drawing key) .cancel br view).effects.count .recordHistory = 1 ∧
    .resizeAutoexpand ∈ (Marker.handle_event (.drawing key) .cancel br view).effects ∧
    (Marker.handle_event (.drawing key) .cancel br view).state = .idle ∧
    (Marker.handle_event (.drawing key) .cancel br view).eventResult =
      ⟨true, .stop, .finished⟩ := by
  refine ⟨rfl, StrokeStore.get_modify view.store key MarkerStroke.update_geometry, rfl,
    ?_, ?_, rfl, rfl⟩
  · simp [Marker.handle_event, List.count_cons]
  · simp [Marker.handle_event]

/-- C4 counterexample: the full re-render triggered by Cancel is dispatched to the
background task queue (threaded), not synchronously in-line as the claim states. -/
theorem C4_counterexample :
    (Marker.handle_event (.drawing 0) .cancel brInProgress view1).effects =
      [.regenerateRendering .threaded 0 view1.viewport view1.imageScale,
       .resizeAutoexpand, .recordHistory] ∧
    StoreEffect.regenerateRendering .inline 0 view1.viewport view1.imageScale ∉
      (Marker.handle_event (.drawing 0) .cancel brInProgress view1).effects := by
  exact ⟨by decide, by decide⟩

/-- C4 (amended): only the stroke-start render on Down is dispatched synchronously
in-line; the incremental append-during-drag renders, the Up-finish full
regeneration and also the Cancel full re-render are all dispatched to the
background task queue. -/
theorem C4_render_dispatch (element : Element) (br : EventResult BuilderProgress)
    (view : EngineViewMut) (key : ℕ) (hd : Bool) (pr : EventPropagation)
    (segs : List Segment) :
    ((view.documentBounds.loosened Marker.INPUT_OVERSHOOT).containsPoint element.pos = true →
      (Marker.handle_event .idle (.down element) br view).effects =
        [.regenerateRendering .inline view.store.strokes.length view.viewport
          view.imageScale]) ∧
    (Marker.handle_event (.drawing key) .cancel br view).effects =
      [.regenerateRendering .threaded key view.viewport view.imageScale,
       .resizeAutoexpand, .recordHistory] ∧
    (Marker.handle_event (.drawing key) (.move element)
        ⟨hd, pr, .emitContinue segs⟩ view).effects =
      (if segs.length ≠ 0 then
        [.appendRenderingLastSegments .threaded key segs.length view.viewport
          view.imageScale]
       else []) ∧
    (Marker.handle_event (.drawing key) (.up element) ⟨hd, pr, .finished segs⟩ view).effects =
      (if segs.length ≠ 0 then
        [.appendRenderingLastSegments .threaded key segs.length view.viewport
          view.imageScale]
       else []) ++
      [.regenerateRendering .threaded key view.viewport view.imageScale,
       .resizeAutoexpand, .recordHistory] := by
  refine ⟨fun h => ?_, rfl, ?_, ?_⟩
  · simp [Marker.handle_event, Element.filter_by_bounds, h, StrokeStore.insert_stroke]
  · by_cases h : segs.length ≠ 0 <;> simp [Marker.handle_event, h]
  · by_cases h : segs.length ≠ 0 <;> simp [Marker.handle_event, h]

/-- C4 witness: the dispatch classification at the concrete inputs — inline for the
in-bounds Down, threaded for Cancel, for a one-segment continue emission and for a
one-segment finish. -/
theorem C4_render_dispatch_witness :
    (view0.documentBounds.loosened Marker.INPUT_OVERSHOOT).containsPoint (el 10 10).pos =
      true ∧
    (Marker.handle_event .idle (.down (el 10 10)) brInProgress view0).effects =
      [.regenerateRendering .inline view0.store.strokes.length view0.viewport
        view0.imageScale] ∧
    (Marker.handle_event (.drawing 0) .cancel brInProgress view0).effects =
      [.regenerateRendering .threaded 0 view0.viewport view0.imageScale,
       .resizeAutoexpand, .recordHistory] :=
  ⟨containsPoint_down_in_view0,
    (C4_render_dispatch (el 10 10) brInProgress view0 0 true .stop []).1
      containsPoint_down_in_view0,
    (C4_render_dispatch (el 10 10) brInProgress view0 0 true .stop []).2.1⟩

/-- C2 counterexample: in Drawing, an Up for which the builder reports Finished with
zero new segments still requests a (threaded) full re-render and still mutates the
store (geometry recompute, history record, store_modified set), contradicting the
claim that a zero-segment emission requests no render and mutates nothing. -/
theorem C2_counterexample :
    (Marker.handle_event (.drawing 0) (.up (el 20 20))
        ⟨true, .stop, .finished []⟩ view1).effects =
      [.regenerateRendering .threaded 0 view1.viewport view1.imageScale,
       .resizeAutoexpand, .recordHistory] ∧
    (Marker.handle_event (.drawing 0) (.up (el 20 20))
        ⟨true, .stop, .finished []⟩ view1).effects ≠ [] ∧
    (Marker.handle_event (.drawing 0) (.up (el 20 20))
        ⟨true, .stop, .finished []⟩ view1).widgetFlags.store_modified = true := by
  exact ⟨by decide, by decide, by decide⟩

/-- C2 (amended): every non-Cancel event in Drawing is forwarded to the builder.  A
continue emission of N > 0 segments appends exactly those segments and requests one
incremental render covering exactly those N last segments (no full re-render); a
continue emission of zero segments requests nothing and mutates nothing.  A finished
emission appends and incrementally renders its N segments the same way when N > 0,
but always — even with zero segments — recomputes geometry, requests a threaded full
re-render and auto-expand, records history and marks the store modified. -/
theorem C2_drawing_emission (key : ℕ) (ev : PenEvent) (hd : Bool)
    (pr : EventPropagation) (segs : List Segment) (view : EngineViewMut)
    (hev : ev ≠ .cancel) :
    Marker.handle_event (.drawing key) ev ⟨hd, pr, .emitContinue segs⟩ view =
      (if segs.length ≠ 0 then
        { eventResult := ⟨hd, pr, .inProgress⟩
          widgetFlags := { store_modified := (view.store.get_stroke key).isSome }
          state := .drawing key
          store := view.store.modify_stroke key (fun s => s.extend_w_segments segs)
          effects := [.appendRenderingLastSegments .threaded key segs.length view.viewport
            view.imageScale] }
       else
        { eventResult := ⟨hd, pr, .inProgress⟩
          widgetFlags := {}
          state := .drawing key
          store := view.store
          effects := [] }) ∧
    (Marker.handle_event (.drawing key) ev
        ⟨hd, pr, .emitContinue segs⟩ view).store.get_stroke key =
      (if segs.length ≠ 0 then
        (view.store.get_stroke key).map (fun s => s.extend_w_segments segs)
       else view.store.get_stroke key) ∧
    Marker.handle_event (.drawing key) ev ⟨hd, pr, .finished segs⟩ view =
      { eventResult := ⟨hd, pr, .finished⟩
        widgetFlags := { store_modified := true }
        state := .idle
        store := (if segs.length ≠ 0 then
            view.store.modify_stroke key (fun s => s.extend_w_segments segs)
          else view.store).update_geometry_for_stroke key
        effects := (if segs.length ≠ 0 then
            [.appendRenderingLastSegments .threaded key segs.length view.viewport
              view.imageScale]
          else []) ++
          [.regenerateRendering .threaded key view.viewport view.imageScale,
           .resizeAutoexpand, .recordHistory] } := by
  cases ev with
  | cancel => exact absurd rfl hev
  | down e =>
    refine ⟨?_, ?_, ?_⟩ <;> by_cases h : segs.length ≠ 0 <;>
      simp [Marker.handle_event, h, StrokeStore.get_modify]
  | move e =>
    refine ⟨?_, ?_, ?_⟩ <;> by_cases h : segs.length ≠ 0 <;>
      simp [Marker.handle_event, h, StrokeStore.get_modify]
  | up e =>
    refine ⟨?_, ?_, ?_⟩ <;> by_cases h : segs.length ≠ 0 <;>
      simp [Marker.handle_event, h, StrokeStore.get_modify]

/-- C2 witness: a concrete one-segment continue emission on a store holding the
stroke at key 0 appends exactly that segment to the stroke's path. -/
theorem C2_drawing_emission_witness :
    ((.move (el 0 0) : PenEvent) ≠ .cancel) ∧
    (Marker.handle_event (.drawing 0) (.move (el 0 0))
        ⟨true, .stop, .emitContinue [.lineTo (el 5 5)]⟩ view1).store.get_stroke 0 =
      (view1.store.get_stroke 0).map
        (fun s => s.extend_w_segments [.lineTo (el 5 5)]) :=
  ⟨by decide, by
    have h := (C2_drawing_emission 0 (.move (el 0 0)) true .stop [.lineTo (el 5 5)]
      view1 (by decide)).2.1
    simpa using h⟩

/-- A one-segment stroke from (0, 0) to (5, 0), width 10. -/
def stroke71 : MarkerStroke :=
  MarkerStroke.from_penpath ⟨el 0 0, [.lineTo (el 5 0)]⟩ 10 .circular ⟨0, 0, 0, 1⟩

/-- C7 counterexample: with n = 1 on a one-segment path all segments are included,
but the generated image's sub-path starts at the end point of the first segment
(5, 0), not at the path's start element (0, 0) as the claim states. -/
theorem C7_counterexample :
    (stroke71.gen_image_for_last_segments 1 1 true).toOption.map
      (fun o => o.map (fun img => (img.path.start, img.path.segments.length))) =
      some (some (el 5 0, 1)) ∧
    stroke71.path.start = el 0 0 ∧
    el 5 0 ≠ stroke71.path.start ∧
    stroke71.path.segments.length ≤ 1 := by
  exact ⟨by decide, by decide, by decide, by decide⟩

/-- C7 (amended): the generated image's sub-path consists of exactly the last
min(n, path length) segments of the path; its start element is the end point of the
segment at the saturating index (path length − n − 1): the end of the segment
immediately preceding the last n segments when n < path length, but the end of the
first segment when n ≥ path length ≥ 1, and the path's start element exactly when
the path has no segments; the image rasterizes the sub-path's own bounds loosened
by half the width. -/
theorem C7_last_segments (s : MarkerStroke) (n : ℕ) (sc : ℚ) (img : Image)
    (himg : s.gen_image_for_last_segments n sc true = .ok (some img)) :
    img.path = s.lastSegmentsRangePath n ∧
    img.path.segments = s.path.segments.drop (s.path.segments.length - n) ∧
    img.path.segments.length = min n s.path.segments.length ∧
    (n < s.path.segments.length →
      ∃ seg, s.path.segments.get? (s.path.segments.length - n - 1) = some seg ∧
        img.path.start = seg.endEl) ∧
    (s.path.segments.length ≤ n → s.path.segments ≠ [] →
      ∃ seg0, s.path.segments.head? = some seg0 ∧ img.path.start = seg0.endEl) ∧
    (s.path.segments = [] → img.path.start = s.path.start) ∧
    img.bounds = img.path.bounds.loosened (s.width * (1/2)) := by
  have himg' : img = Image.mk (s.lastSegmentsRangePath n) s.color s.width
      (markerStrokeStyle s.shape)
      ((s.lastSegmentsRangePath n).bounds.loosened (s.width * (1/2))) sc := by
    have h := himg
    simp only [MarkerStroke.gen_image_for_last_segments, if_true] at h
    exact (Option.some.injEq _ _ ▸ (Except.ok.injEq _ _ ▸ h : _ = _)).symm
  subst himg'
  refine ⟨rfl, rfl, ?_, ?_, ?_, ?_, rfl⟩
  · simp only [MarkerStroke.lastSegmentsRangePath, PenPath.new_w_segments,
      List.length_drop]
    omega
  · intro hlt
    have hidx : s.path.segments.length - n - 1 < s.path.segments.length := by omega
    refine ⟨s.path.segments.get ⟨_, hidx⟩, List.get?_eq_get hidx, ?_⟩
    show MarkerStroke.lastSegmentsStartEl s n = _
    unfold MarkerStroke.lastSegmentsStartEl
    rw [List.get?_eq_get hidx]
  · intro hge hne
    have hidx : 0 < s.path.segments.length := List.length_pos.mpr hne
    have hidx0 : s.path.segments.length - n - 1 = 0 := by omega
    refine ⟨s.path.segments.get ⟨0, hidx⟩, ?_, ?_⟩
    · rw [← List.get?_zero, List.get?_eq_get hidx]
    · show MarkerStroke.lastSegmentsStartEl s n = _
      unfold MarkerStroke.lastSegmentsStartEl
      rw [hidx0, List.get?_eq_get hidx]
  · intro hnil
    show MarkerStroke.lastSegmentsStartEl s n = _
    unfold MarkerStroke.lastSegmentsStartEl
    rw [hnil]
    rfl

/-- C7 witness: the theorem instantiated at the concrete one-segment stroke with
n = 1: the sub-path keeps min(1, 1) = 1 segment, starts at the first segment's end
point and is rasterized over its own half-width-loosened bounds. -/
theorem C7_last_segments_witness :
    (Image.mk (stroke71.lastSegmentsRangePath 1) stroke71.color stroke71.width
        (markerStrokeStyle stroke71.shape)
        ((stroke71.lastSegmentsRangePath 1).bounds.loosened (stroke71.width * (1/2)))
        1).path.segments.length = min 1 stroke71.path.segments.length ∧
    (∃ seg0, stroke71.path.segments.head? = some seg0 ∧
      (Image.mk (stroke71.lastSegmentsRangePath 1) stroke71.color stroke71.width
        (markerStrokeStyle stroke71.shape)
        ((stroke71.lastSegmentsRangePath 1).bounds.loosened (stroke71.width * (1/2)))
        1).path.start = seg0.endEl) :=
  ⟨(C7_last_segments stroke71 1 1 _ rfl).2.2.1,
    (C7_last_segments stroke71 1 1 _ rfl).2.2.2.2.1 (by decide) (by decide)⟩

/-- A point stroke at (10, 10) with width 10; its bounds are (5, 5)–(15, 15). -/
def stroke8 : MarkerStroke := MarkerStroke.new (el 10 10) 10 .circular ⟨0, 0, 1, 1⟩

/-- A viewport far away from `stroke8`. -/
def vpFar : Aabb := ⟨⟨100, 100⟩, ⟨200, 200⟩⟩

/-- `view0`'s viewport contains the bounds of `stroke8`. -/
theorem contains_view0_stroke8 : view0.viewport.contains stroke8.bounds = true := by
  norm_num [Aabb.contains, view0, stroke8, MarkerStroke.new, MarkerStroke.from_penpath,
    MarkerStroke.update_geometry, MarkerStroke.bounds, PenPath.new, PenPath.bounds,
    Aabb.ofPoint, Aabb.loosened, el]

/-- The far viewport does not intersect the bounds of `stroke8`. -/
theorem intersection_vpFar_stroke8 : vpFar.intersection stroke8.bounds = none := by
  norm_num [Aabb.intersection, vpFar, stroke8, MarkerStroke.new, MarkerStroke.from_penpath,
    MarkerStroke.update_geometry, MarkerStroke.bounds, PenPath.new, PenPath.bounds,
    Aabb.ofPoint, Aabb.loosened, el]

/-- Evaluation of `gen_images` when the stroke bounds do not intersect the viewport. -/
theorem MarkerStroke.gen_images_of_intersection_none (s : MarkerStroke) (viewport : Aabb)
    (sc : ℚ) (rok : Bool) (h : viewport.intersection s.bounds = none) :
    s.gen_images viewport sc rok = .ok (.partialImages [] viewport) := by
  unfold MarkerStroke.gen_images
  rw [h]

/-- Evaluation of `gen_images` when the viewport contains the stroke bounds. -/
theorem MarkerStroke.gen_images_of_contains (s : MarkerStroke) (viewport : Aabb)
    (sc : ℚ) (rok : Bool) (clipped : Aabb)
    (hint : viewport.intersection s.bounds = some clipped)
    (hc : viewport.contains s.bounds = true) :
    s.gen_images viewport sc rok =
      .ok (.full (if rok then
        [Image.mk s.path s.color s.width (markerStrokeStyle s.shape) clipped sc]
        else [])) := by
  unfold MarkerStroke.gen_images
  rw [hint, hc]
  rfl

/-- Evaluation of `gen_images` when the viewport does not contain the stroke bounds
but intersects them. -/
theorem MarkerStroke.gen_images_of_not_contains (s : MarkerStroke) (viewport : Aabb)
    (sc : ℚ) (rok : Bool) (clipped : Aabb)
    (hint : viewport.intersection s.bounds = some clipped)
    (hc : viewport.contains s.bounds = false) :
    s.gen_images viewport sc rok =
      .ok (.partialImages (if rok then
        [Image.mk s.path s.color s.width (markerStrokeStyle s.shape) clipped sc]
        else []) viewport) := by
  unfold MarkerStroke.gen_images
  rw [hint, hc]
  rfl

/-- C8: `gen_images` returns a Full result exactly when the viewport contains the
stroke's bounds (the single image then covering exactly the stroke bounds);
otherwise a Partial result clipped to the intersection of stroke bounds and
viewport, with the viewport retained; an explicitly empty Partial result when the
bounds do not intersect the viewport at all; and, when rendering fails, an empty
image list inside an ok result rather than an error. -/
theorem C8_gen_images (s : MarkerStroke) (viewport : Aabb) (sc : ℚ)
    (renderOk : Bool) (hw : 0 ≤ s.width) :
    ((∃ imgs, s.gen_images viewport sc renderOk = .ok (.full imgs)) ↔
      viewport.contains s.bounds = true) ∧
    (viewport.contains s.bounds = true →
      s.gen_images viewport sc true =
        .ok (.full [Image.mk s.path s.color s.width (markerStrokeStyle s.shape)
          s.bounds sc])) ∧
    (∀ clipped, viewport.contains s.bounds = false →
      viewport.intersection s.bounds = some clipped →
      s.gen_images viewport sc true =
        .ok (.partialImages [Image.mk s.path s.color s.width (markerStrokeStyle s.shape)
          clipped sc] viewport)) ∧
    (viewport.intersection s.bounds = none →
      s.gen_images viewport sc renderOk = .ok (.partialImages [] viewport)) ∧
    (∃ res, s.gen_images viewport sc false = .ok res ∧
      (res = .partialImages [] viewport ∨ res = .full [])) := by
  have hval : s.bounds.valid :=
    Aabb.valid_loosened _ _ (PenPath.bounds_valid s.path)
      (mul_nonneg hw (by norm_num))
  by_cases hc : viewport.contains s.bounds = true
  · have hint : viewport.intersection s.bounds = some s.bounds :=
      Aabb.intersection_of_contains _ _ hc hval
    refine ⟨⟨fun _ => hc, fun _ => ?_⟩, fun _ => ?_, ?_, ?_, ?_⟩
    · exact ⟨_, MarkerStroke.gen_images_of_contains s viewport sc renderOk s.bounds hint hc⟩
    · rw [MarkerStroke.gen_images_of_contains s viewport sc true s.bounds hint hc]
      simp
    · intro clipped hcf _
      exact absurd hc (by simp [hcf])
    · intro hnone
      rw [hint] at hnone
      exact absurd hnone (by simp)
    · refine ⟨.full [], ?_, .inr rfl⟩
      rw [MarkerStroke.gen_images_of_contains s viewport sc false s.bounds hint hc]
      simp
  · have hcf : viewport.contains s.bounds = false := by
      simpa using hc
    refine ⟨⟨fun ⟨imgs, himgs⟩ => ?_, fun h => absurd h hc⟩, fun h => absurd h hc,
      ?_, ?_, ?_⟩
    · cases hint : viewport.intersection s.bounds with
      | none =>
        rw [MarkerStroke.gen_images_of_intersection_none s viewport sc renderOk hint]
          at himgs
        simp at himgs
      | some clipped =>
        rw [MarkerStroke.gen_images_of_not_contains s viewport sc renderOk clipped hint
          hcf] at himgs
        simp at himgs
    · intro clipped _ hint
      rw [MarkerStroke.gen_images_of_not_contains s viewport sc true clipped hint hcf]
      simp
    · intro hnone
      exact MarkerStroke.gen_images_of_intersection_none s viewport sc renderOk hnone
    · cases hint : viewport.intersection s.bounds with
      | none =>
        exact ⟨.partialImages [] viewport,
          MarkerStroke.gen_images_of_intersection_none s viewport sc false hint, .inl rfl⟩
      | some clipped =>
        refine ⟨.partialImages [] viewport, ?_, .inl rfl⟩
        rw [MarkerStroke.gen_images_of_not_contains s viewport sc false clipped hint hcf]
        simp

/-- C8 witness: concrete classification — `view0`'s viewport fully contains the
concrete stroke and yields a Full result over the stroke's bounds, while the far
viewport does not intersect it and yields the explicitly empty Partial result. -/
theorem C8_gen_images_witness :
    (0 : ℚ) ≤ stroke8.width ∧
    view0.viewport.contains stroke8.bounds = true ∧
    stroke8.gen_images view0.viewport 1 true =
      .ok (.full [Image.mk stroke8.path stroke8.color stroke8.width
        (markerStrokeStyle stroke8.shape) stroke8.bounds 1]) ∧
    vpFar.intersection stroke8.bounds = none ∧
    stroke8.gen_images vpFar 1 true = .ok (.partialImages [] vpFar) :=
  ⟨by decide, contains_view0_stroke8,
    (C8_gen_images stroke8 view0.viewport 1 true (by decide)).2.1
      contains_view0_stroke8,
    intersection_vpFar_stroke8,
    (C8_gen_images stroke8 vpFar 1 true (by decide)).2.2.2.1
      intersection_vpFar_stroke8⟩

end Rnote